import Mathlib

/-!
Verification of the house-project-manager budget tracker.

The data model (Project, Activity, ExchangeRateHistoryEntry) and the
handlers in src/server/src/handlers (getBudgetAnalysis, getProjectById,
getExchangeRateHistory, updateExchangeRate, updateProject, updateActivity,
createProject), together with the client-side status helper
handleStatusUpdate from src/client/src/components/ActivityList.tsx, are
embedded shallowly: the relational store is a record of lists, numeric
columns are exact rationals, dates and timestamps are natural numbers, and
fallible handlers return Except. Each definition mirrors the corresponding
TypeScript function.
-/

namespace HPM

/-- Status enum of an activity, mirroring activityStatusEnum in
src/server/src/db/schema.ts. -/
inductive ActivityStatus where
  | planned
  | in_progress
  | completed
  | cancelled
deriving DecidableEq, Repr

/-- Row of the projects table (numeric columns as exact rationals, date and
timestamp columns as naturals). -/
structure Project where
  id : Nat
  name : String
  description : Option String
  total_budget_usd : Rat
  current_exchange_rate : Rat
  start_date : Nat
  end_date : Nat
  created_at : Nat
  updated_at : Nat
deriving DecidableEq, Repr

/-- Row of the activities table. -/
structure Activity where
  id : Nat
  project_id : Nat
  name : String
  description : Option String
  estimated_start_date : Nat
  estimated_end_date : Nat
  actual_start_date : Option Nat
  actual_end_date : Option Nat
  contractor : Option String
  planned_budget_usd : Rat
  actual_cost_crc : Option Rat
  status : ActivityStatus
  created_at : Nat
  updated_at : Nat
deriving DecidableEq, Repr

/-- Row of the exchange_rate_history table. -/
structure ExchangeRateHistoryEntry where
  id : Nat
  project_id : Nat
  usd_to_crc_rate : Rat
  effective_date : Nat
  created_at : Nat
deriving DecidableEq, Repr

/-- Result record of getBudgetAnalysis, mirroring budgetAnalysisSchema in
src/server/src/schema.ts. -/
structure BudgetAnalysis where
  project_id : Nat
  total_budget_usd : Rat
  total_planned_budget_usd : Rat
  total_actual_cost_usd : Rat
  remaining_budget_usd : Rat
  budget_utilization_percentage : Rat
  projected_total_cost_usd : Rat
  projected_over_budget_usd : Rat
  is_over_budget_risk : Bool
  completed_activities_count : Nat
  total_activities_count : Nat
  project_completion_percentage : Rat
deriving DecidableEq, Repr

/-- The relational store: the three tables plus the serial-id counters.
creationRates is ghost bookkeeping (not a database column): it records, per
project id, the exchange rate the project was created with, so that the
audit-trail invariant of the spec can be stated. No handler reads it. -/
structure Store where
  projects : List Project
  activities : List Activity
  history : List ExchangeRateHistoryEntry
  nextProjectId : Nat
  nextActivityId : Nat
  nextEntryId : Nat
  creationRates : List (Nat × Rat)
deriving DecidableEq, Repr

/-- Accumulation of planned budgets over the activity loop of
get_budget_analysis.ts (line 37). -/
def totalPlannedBudget (activities : List Activity) : Rat :=
  activities.foldl (fun acc a => acc + a.planned_budget_usd) 0

/-- Count of completed activities over the loop of get_budget_analysis.ts
(lines 40-42). -/
def completedCount (activities : List Activity) : Nat :=
  activities.foldl (fun acc a => if a.status = ActivityStatus.completed then acc + 1 else acc) 0

/-- Accumulation of actual costs converted CRC to USD over the loop of
get_budget_analysis.ts (lines 45-48): activities with a null actual cost
contribute nothing, the others contribute actual_cost_crc divided by the
project's current exchange rate. -/
def totalActualCost (rate : Rat) (activities : List Activity) : Rat :=
  activities.foldl
    (fun acc a =>
      match a.actual_cost_crc with
      | some c => acc + c / rate
      | none => acc)
    0

/-- Pure core of getBudgetAnalysis (get_budget_analysis.ts lines 19-96):
the arithmetic part after the project row and its activities are loaded. -/
def computeBudgetAnalysis (projectId : Nat) (project : Project)
    (activities : List Activity) : BudgetAnalysis :=
  let totalBudgetUsd := project.total_budget_usd
  let currentExchangeRate := project.current_exchange_rate
  let totalActivitiesCount := activities.length
  let totalPlannedBudgetUsd := totalPlannedBudget activities
  let totalActualCostUsd := totalActualCost currentExchangeRate activities
  let completedActivitiesCount := completedCount activities
  let remainingBudgetUsd := totalBudgetUsd - totalActualCostUsd
  let budgetUtilizationPercentage :=
    if totalBudgetUsd > 0 then totalActualCostUsd / totalBudgetUsd * 100 else 0
  let projectCompletionPercentage :=
    if totalActivitiesCount > 0 then
      ((completedActivitiesCount : Rat) / (totalActivitiesCount : Rat)) * 100
    else 0
  let projectedTotalCostUsd :=
    if projectCompletionPercentage > 0 ∧ totalActualCostUsd > 0 then
      totalActualCostUsd / projectCompletionPercentage * 100
    else if totalPlannedBudgetUsd > 0 then
      totalPlannedBudgetUsd
    else
      totalActualCostUsd
  let projectedOverBudgetUsd := max 0 (projectedTotalCostUsd - totalBudgetUsd)
  let isOverBudgetRisk : Bool :=
    decide (projectedOverBudgetUsd > 0) ||
      (decide (budgetUtilizationPercentage > 80) && decide (projectCompletionPercentage < 80))
  { project_id := projectId
    total_budget_usd := totalBudgetUsd
    total_planned_budget_usd := totalPlannedBudgetUsd
    total_actual_cost_usd := totalActualCostUsd
    remaining_budget_usd := remainingBudgetUsd
    budget_utilization_percentage := budgetUtilizationPercentage
    projected_total_cost_usd := projectedTotalCostUsd
    projected_over_budget_usd := projectedOverBudgetUsd
    is_over_budget_risk := isOverBudgetRisk
    completed_activities_count := completedActivitiesCount
    total_activities_count := totalActivitiesCount
    project_completion_percentage := projectCompletionPercentage }

/-- Handler getBudgetAnalysis (get_budget_analysis.ts): load the project
row by id, signal Not-Found when absent, otherwise run the analysis over
the project's activities. -/
def getBudgetAnalysis (s : Store) (projectId : Nat) : Except String BudgetAnalysis :=
  match s.projects.find? (fun p => p.id == projectId) with
  | none => Except.error ("Project with id " ++ toString projectId ++ " not found")
  | some project =>
      Except.ok (computeBudgetAnalysis projectId project
        (s.activities.filter (fun a => a.project_id == projectId)))

/-- Handler getProjectById (get_project_by_id.ts): returns the row when it
exists and null (none) when it does not. -/
def getProjectById (s : Store) (id : Nat) : Option Project :=
  s.projects.find? (fun p => p.id == id)

/-- Insertion step of the descending sort by effective_date used to model
the orderBy desc clause of get_exchange_rate_history.ts. -/
def insertByEffectiveDateDesc (e : ExchangeRateHistoryEntry) :
    List ExchangeRateHistoryEntry → List ExchangeRateHistoryEntry
  | [] => [e]
  | f :: fs =>
      if f.effective_date ≤ e.effective_date then e :: f :: fs
      else f :: insertByEffectiveDateDesc e fs

/-- Descending sort by effective_date (orderBy desc of
get_exchange_rate_history.ts). -/
def sortByEffectiveDateDesc (l : List ExchangeRateHistoryEntry) :
    List ExchangeRateHistoryEntry :=
  l.foldr insertByEffectiveDateDesc []

/-- Handler getExchangeRateHistory (get_exchange_rate_history.ts): all
history rows of the given project, most recent effective_date first; an
unknown project id simply yields the empty list. -/
def getExchangeRateHistory (s : Store) (projectId : Nat) :
    List ExchangeRateHistoryEntry :=
  sortByEffectiveDateDesc (s.history.filter (fun e => e.project_id == projectId))

/-- Input of createProject (createProjectInputSchema). -/
structure CreateProjectInput where
  name : String
  description : Option String
  total_budget_usd : Rat
  current_exchange_rate : Rat
  start_date : Nat
  end_date : Nat
deriving DecidableEq, Repr

/-- Input of updateProject (updateProjectInputSchema); optional fields are
Options, and optional nullable fields are Options of Options. -/
structure UpdateProjectInput where
  id : Nat
  name : Option String
  description : Option (Option String)
  total_budget_usd : Option Rat
  current_exchange_rate : Option Rat
  start_date : Option Nat
  end_date : Option Nat
deriving DecidableEq, Repr

/-- Input of updateExchangeRate (updateExchangeRateInputSchema). -/
structure UpdateExchangeRateInput where
  project_id : Nat
  usd_to_crc_rate : Rat
deriving DecidableEq, Repr

/-- Input of updateActivity (updateActivityInputSchema). -/
structure UpdateActivityInput where
  id : Nat
  name : Option String
  description : Option (Option String)
  estimated_start_date : Option Nat
  estimated_end_date : Option Nat
  actual_start_date : Option (Option Nat)
  actual_end_date : Option (Option Nat)
  contractor : Option (Option String)
  planned_budget_usd : Option Rat
  actual_cost_crc : Option (Option Rat)
  status : Option ActivityStatus
deriving DecidableEq, Repr

/-- Handler createProject (create_project.ts): insert a project row; the
serial id counter provides the new id, created_at and updated_at default to
now. The ghost creationRates records the creation-time rate. -/
def createProject (s : Store) (input : CreateProjectInput) (now : Nat) :
    Project × Store :=
  let p : Project :=
    { id := s.nextProjectId
      name := input.name
      description := input.description
      total_budget_usd := input.total_budget_usd
      current_exchange_rate := input.current_exchange_rate
      start_date := input.start_date
      end_date := input.end_date
      created_at := now
      updated_at := now }
  (p,
    { s with
      projects := s.projects ++ [p]
      nextProjectId := s.nextProjectId + 1
      creationRates := s.creationRates ++ [(p.id, p.current_exchange_rate)] })

/-- Field-wise update object of update_project.ts: provided fields
overwrite, absent fields keep their value, updated_at is always set. -/
def applyProjectUpdate (input : UpdateProjectInput) (now : Nat) (p : Project) :
    Project :=
  { p with
    name := input.name.getD p.name
    description := input.description.getD p.description
    total_budget_usd := input.total_budget_usd.getD p.total_budget_usd
    current_exchange_rate := input.current_exchange_rate.getD p.current_exchange_rate
    start_date := input.start_date.getD p.start_date
    end_date := input.end_date.getD p.end_date
    updated_at := now }

/-- Handler updateProject (update_project.ts): update the row matching the
id with the provided fields; when no row matches, the update touches
nothing and the handler throws Not-Found. -/
def updateProject (s : Store) (input : UpdateProjectInput) (now : Nat) :
    Except String (Project × Store) :=
  match s.projects.find? (fun p => p.id == input.id) with
  | none => Except.error ("Project with id " ++ toString input.id ++ " not found")
  | some p =>
      Except.ok (applyProjectUpdate input now p,
        { s with
          projects := s.projects.map (fun q =>
            if q.id == input.id then applyProjectUpdate input now q else q) })

/-- Handler updateExchangeRate (update_exchange_rate.ts): verify the
project exists (Not-Found otherwise), overwrite its current_exchange_rate
and updated_at, and append one history row carrying the new rate with the
current timestamp. -/
def updateExchangeRate (s : Store) (input : UpdateExchangeRateInput) (now : Nat) :
    Except String (ExchangeRateHistoryEntry × Store) :=
  match s.projects.find? (fun p => p.id == input.project_id) with
  | none => Except.error ("Project with id " ++ toString input.project_id ++ " not found")
  | some _ =>
      let entry : ExchangeRateHistoryEntry :=
        { id := s.nextEntryId
          project_id := input.project_id
          usd_to_crc_rate := input.usd_to_crc_rate
          effective_date := now
          created_at := now }
      Except.ok (entry,
        { s with
          projects := s.projects.map (fun q =>
            if q.id == input.project_id then
              { q with current_exchange_rate := input.usd_to_crc_rate, updated_at := now }
            else q)
          history := s.history ++ [entry]
          nextEntryId := s.nextEntryId + 1 })

/-- Field-wise update object of update_activity.ts (lines 9-30): provided
fields overwrite, absent fields keep their value, updated_at is always
set; no status-dependent side effect on the actual dates. -/
def applyActivityUpdate (input : UpdateActivityInput) (now : Nat) (a : Activity) :
    Activity :=
  { a with
    name := input.name.getD a.name
    description := input.description.getD a.description
    estimated_start_date := input.estimated_start_date.getD a.estimated_start_date
    estimated_end_date := input.estimated_end_date.getD a.estimated_end_date
    actual_start_date := input.actual_start_date.getD a.actual_start_date
    actual_end_date := input.actual_end_date.getD a.actual_end_date
    contractor := input.contractor.getD a.contractor
    planned_budget_usd := input.planned_budget_usd.getD a.planned_budget_usd
    actual_cost_crc := input.actual_cost_crc.getD a.actual_cost_crc
    status := input.status.getD a.status
    updated_at := now }

/-- Handler updateActivity (update_activity.ts): update the row matching
the id with the provided fields; when no row matches, nothing is touched
and the handler throws Not-Found. -/
def updateActivity (s : Store) (input : UpdateActivityInput) (now : Nat) :
    Except String (Activity × Store) :=
  match s.activities.find? (fun a => a.id == input.id) with
  | none => Except.error ("Activity with id " ++ toString input.id ++ " not found")
  | some a =>
      Except.ok (applyActivityUpdate input now a,
        { s with
          activities := s.activities.map (fun b =>
            if b.id == input.id then applyActivityUpdate input now b else b) })

/-- Client-side status helper handleStatusUpdate of ActivityList.tsx
(lines 64-81): set the new status, set actual_start_date to now only when
the transition is to in_progress and the date was null, set
actual_end_date to now on completed or cancelled, stamp updated_at. -/
def handleStatusUpdate (activity : Activity) (newStatus : ActivityStatus)
    (now : Nat) : Activity :=
  { activity with
    status := newStatus
    actual_start_date :=
      if newStatus = ActivityStatus.in_progress ∧ activity.actual_start_date = none
      then some now else activity.actual_start_date
    actual_end_date :=
      if newStatus = ActivityStatus.completed ∨ newStatus = ActivityStatus.cancelled
      then some now else activity.actual_end_date
    updated_at := now }

/-- Operations of the project-and-rate state machine, each carrying the
wall-clock time of the request. -/
inductive Op where
  | createProjectOp (input : CreateProjectInput) (now : Nat)
  | updateProjectOp (input : UpdateProjectInput) (now : Nat)
  | updateRateOp (input : UpdateExchangeRateInput) (now : Nat)
deriving DecidableEq, Repr

/-- Effect of one operation on the store; a handler that throws leaves the
store unchanged (its writes happen only after its existence check, or not
at all when no row matches). -/
def step (s : Store) : Op → Store
  | Op.createProjectOp input now => (createProject s input now).2
  | Op.updateProjectOp input now =>
      match updateProject s input now with
      | Except.ok r => r.2
      | Except.error _ => s
  | Op.updateRateOp input now =>
      match updateExchangeRate s input now with
      | Except.ok r => r.2
      | Except.error _ => s

/-- The store of a fresh database: empty tables, serial counters at 1. -/
def emptyStore : Store :=
  { projects := []
    activities := []
    history := []
    nextProjectId := 1
    nextActivityId := 1
    nextEntryId := 1
    creationRates := [] }

/-- State reached by running a sequence of operations on a fresh store. -/
def runOps (ops : List Op) : Store :=
  ops.foldl step emptyStore

/-- Most recent history entry of a project within a history table: rows are
append-only, so it is the last row carrying the project's id. -/
def lastEntryIn (history : List ExchangeRateHistoryEntry) (pid : Nat) :
    Option ExchangeRateHistoryEntry :=
  (history.filter (fun e => e.project_id == pid)).getLast?

/-- Creation-time exchange rate of a project, read from a ghost log. -/
def creationRateIn (creationRates : List (Nat × Rat)) (pid : Nat) : Option Rat :=
  (creationRates.find? (fun pr => pr.1 == pid)).map (fun pr => pr.2)

/-- Rate a project is expected to carry according to its audit trail: the
rate of its most recent history entry, or its creation-time rate when no
entry exists. -/
def expectedRateIn (history : List ExchangeRateHistoryEntry)
    (creationRates : List (Nat × Rat)) (pid : Nat) : Option Rat :=
  match lastEntryIn history pid with
  | some e => some e.usd_to_crc_rate
  | none => creationRateIn creationRates pid

/-- Expected rate of a project id in a store. -/
def expectedRate (s : Store) (pid : Nat) : Option Rat :=
  expectedRateIn s.history s.creationRates pid

/-- Audit-trail invariant of the spec: every project's current rate agrees
with its history log. -/
def rateConsistent (s : Store) : Prop :=
  ∀ p ∈ s.projects, expectedRate s p.id = some p.current_exchange_rate

/-- Well-formedness of serial ids: every project id, history project_id and
ghost key is below the project id counter. -/
def wfIds (s : Store) : Prop :=
  (∀ p ∈ s.projects, p.id < s.nextProjectId) ∧
  (∀ e ∈ s.history, e.project_id < s.nextProjectId) ∧
  (∀ pr ∈ s.creationRates, pr.1 < s.nextProjectId)

/-- An operation that never silently overwrites a rate: any updateProject
in it does not provide current_exchange_rate. -/
def opPreservesRateLog : Op → Prop
  | Op.updateProjectOp input _ => input.current_exchange_rate = none
  | _ => True

instance (s : Store) : Decidable (rateConsistent s) :=
  inferInstanceAs (Decidable (∀ p ∈ s.projects, expectedRate s p.id = some p.current_exchange_rate))

instance : (op : Op) → Decidable (opPreservesRateLog op)
  | Op.createProjectOp _ _ => Decidable.isTrue trivial
  | Op.updateProjectOp input _ =>
      inferInstanceAs (Decidable (input.current_exchange_rate = none))
  | Op.updateRateOp _ _ => Decidable.isTrue trivial

/-! Concrete fixtures used by the scenario theorems and the witnesses. -/

/-- Project of Scenario C of the spec: budget 80000 USD, rate 500. -/
def scenarioCProject : Project :=
  { id := 1
    name := "Scenario C"
    description := none
    total_budget_usd := 80000
    current_exchange_rate := 500
    start_date := 0
    end_date := 365
    created_at := 0
    updated_at := 0 }

/-- Activities of Scenario C: two completed (planned 20000 and 15000 USD,
actual costs 12000000 and 7000000 CRC), one in_progress (planned 25000,
actual 5000000 CRC), one planned (planned 20000, no actual cost). -/
def scenarioCActivities : List Activity :=
  [{ id := 1
     project_id := 1
     name := "Foundations"
     description := none
     estimated_start_date := 0
     estimated_end_date := 30
     actual_start_date := some 0
     actual_end_date := some 30
     contractor := none
     planned_budget_usd := 20000
     actual_cost_crc := some 12000000
     status := ActivityStatus.completed
     created_at := 0
     updated_at := 0 },
   { id := 2
     project_id := 1
     name := "Framing"
     description := none
     estimated_start_date := 30
     estimated_end_date := 60
     actual_start_date := some 30
     actual_end_date := some 60
     contractor := none
     planned_budget_usd := 15000
     actual_cost_crc := some 7000000
     status := ActivityStatus.completed
     created_at := 0
     updated_at := 0 },
   { id := 3
     project_id := 1
     name := "Roofing"
     description := none
     estimated_start_date := 60
     estimated_end_date := 90
     actual_start_date := some 60
     actual_end_date := none
     contractor := none
     planned_budget_usd := 25000
     actual_cost_crc := some 5000000
     status := ActivityStatus.in_progress
     created_at := 0
     updated_at := 0 },
   { id := 4
     project_id := 1
     name := "Finishes"
     description := none
     estimated_start_date := 90
     estimated_end_date := 120
     actual_start_date := none
     actual_end_date := none
     contractor := none
     planned_budget_usd := 20000
     actual_cost_crc := none
     status := ActivityStatus.planned
     created_at := 0
     updated_at := 0 }]

/-- Store holding the Scenario C project and its four activities. -/
def scenarioCStore : Store :=
  { projects := [scenarioCProject]
    activities := scenarioCActivities
    history := []
    nextProjectId := 2
    nextActivityId := 5
    nextEntryId := 1
    creationRates := [(1, 500)] }

/-- Projected-total-cost formula exactly as section 4.1 of the spec words
it, for comparison with the code: its final fallback is 0, where the code
keeps the running total of actual costs. -/
def projectedTotalCostSpec (project : Project) (activities : List Activity) : Rat :=
  let completion :=
    if activities.length > 0 then
      ((completedCount activities : Rat) / (activities.length : Rat)) * 100
    else 0
  let actual := totalActualCost project.current_exchange_rate activities
  let planned := totalPlannedBudget activities
  if completion > 0 ∧ actual > 0 then actual / completion * 100
  else if planned > 0 then planned
  else 0

/-- Project used in the projected-cost counterexample: budget 100000 USD,
rate 500 CRC per USD. -/
def sunkCostProject : Project :=
  { id := 1
    name := "Sunk"
    description := none
    total_budget_usd := 100000
    current_exchange_rate := 500
    start_date := 0
    end_date := 10
    created_at := 0
    updated_at := 0 }

/-- Activity used in the projected-cost counterexample: zero planned
budget, a recorded actual cost of 500 CRC (1 USD at rate 500), not
completed. -/
def sunkCostActivity : Activity :=
  { id := 1
    project_id := 1
    name := "Extra work"
    description := none
    estimated_start_date := 0
    estimated_end_date := 1
    actual_start_date := some 0
    actual_end_date := none
    contractor := none
    planned_budget_usd := 0
    actual_cost_crc := some 500
    status := ActivityStatus.in_progress
    created_at := 0
    updated_at := 0 }

/-- Project with a zero budget, used as the witness input of the division
guard theorem. -/
def zeroBudgetProject : Project :=
  { id := 1
    name := "Zero"
    description := none
    total_budget_usd := 0
    current_exchange_rate := 500
    start_date := 0
    end_date := 1
    created_at := 0
    updated_at := 0 }

/-- Activity that has not started yet: planned status, no actual dates. -/
def freshActivity : Activity :=
  { id := 1
    project_id := 1
    name := "Walls"
    description := none
    estimated_start_date := 0
    estimated_end_date := 5
    actual_start_date := none
    actual_end_date := none
    contractor := none
    planned_budget_usd := 100
    actual_cost_crc := none
    status := ActivityStatus.planned
    created_at := 0
    updated_at := 0 }

/-- Update input that only provides a new status. -/
def statusOnlyInput : UpdateActivityInput :=
  { id := 1
    name := none
    description := none
    estimated_start_date := none
    estimated_end_date := none
    actual_start_date := none
    actual_end_date := none
    contractor := none
    planned_budget_usd := none
    actual_cost_crc := none
    status := some ActivityStatus.completed }

/-- Store holding only the fresh activity (and the Scenario C project as
its owner). -/
def oneActivityStore : Store :=
  { projects := [scenarioCProject]
    activities := [freshActivity]
    history := []
    nextProjectId := 2
    nextActivityId := 2
    nextEntryId := 1
    creationRates := [(1, 500)] }

/-- History entry of project 1, used by the lookup witness store. -/
def entryOne : ExchangeRateHistoryEntry :=
  { id := 1
    project_id := 1
    usd_to_crc_rate := 500
    effective_date := 0
    created_at := 0 }

/-- Store with one project (id 1) and one history entry for it. -/
def smallStore : Store :=
  { projects := [scenarioCProject]
    activities := []
    history := [entryOne]
    nextProjectId := 2
    nextActivityId := 1
    nextEntryId := 2
    creationRates := [(1, 500)] }

/-- Operations leading to a drifted state: create a project with rate 500,
move the rate to 600 through updateExchangeRate, then overwrite it to 700
through updateProject — which records no history entry. -/
def rateDriftOps : List Op :=
  [Op.createProjectOp
    { name := "House"
      description := none
      total_budget_usd := 1000
      current_exchange_rate := 500
      start_date := 0
      end_date := 300 } 0,
   Op.updateRateOp { project_id := 1, usd_to_crc_rate := 600 } 1,
   Op.updateProjectOp
    { id := 1
      name := none
      description := none
      total_budget_usd := none
      current_exchange_rate := some 700
      start_date := none
      end_date := none } 2]

/-- Operation sequence whose updateProject touches only the name and the
budget, never the rate. -/
def auditedOps : List Op :=
  [Op.createProjectOp
    { name := "House"
      description := none
      total_budget_usd := 1000
      current_exchange_rate := 500
      start_date := 0
      end_date := 300 } 0,
   Op.updateRateOp { project_id := 1, usd_to_crc_rate := 600 } 1,
   Op.updateProjectOp
    { id := 1
      name := some "House B"
      description := none
      total_budget_usd := some 2000
      current_exchange_rate := none
      start_date := none
      end_date := none } 2]

/-! Field-projection lemmas for computeBudgetAnalysis: each one restates a
single output field in terms of the accumulators, by definitional
unfolding. -/

theorem utilization_eq (projectId : Nat) (project : Project)
    (activities : List Activity) :
    (computeBudgetAnalysis projectId project activities).budget_utilization_percentage =
      if project.total_budget_usd > 0 then
        totalActualCost project.current_exchange_rate activities /
          project.total_budget_usd * 100
      else 0 := rfl

theorem completion_eq (projectId : Nat) (project : Project)
    (activities : List Activity) :
    (computeBudgetAnalysis projectId project activities).project_completion_percentage =
      if activities.length > 0 then
        ((completedCount activities : Rat) / (activities.length : Rat)) * 100
      else 0 := rfl

theorem projected_over_eq (projectId : Nat) (project : Project)
    (activities : List Activity) :
    (computeBudgetAnalysis projectId project activities).projected_over_budget_usd =
      max 0 ((computeBudgetAnalysis projectId project activities).projected_total_cost_usd -
        project.total_budget_usd) := rfl

theorem risk_eq (projectId : Nat) (project : Project) (activities : List Activity) :
    (computeBudgetAnalysis projectId project activities).is_over_budget_risk =
      (decide ((computeBudgetAnalysis projectId project activities).projected_over_budget_usd > 0) ||
        (decide ((computeBudgetAnalysis projectId project activities).budget_utilization_percentage > 80) &&
          decide ((computeBudgetAnalysis projectId project activities).project_completion_percentage < 80))) := rfl

theorem actual_cost_eq (projectId : Nat) (project : Project)
    (activities : List Activity) :
    (computeBudgetAnalysis projectId project activities).total_actual_cost_usd =
      totalActualCost project.current_exchange_rate activities := rfl

theorem planned_budget_eq (projectId : Nat) (project : Project)
    (activities : List Activity) :
    (computeBudgetAnalysis projectId project activities).total_planned_budget_usd =
      totalPlannedBudget activities := rfl

theorem projected_eq (projectId : Nat) (project : Project)
    (activities : List Activity) :
    (computeBudgetAnalysis projectId project activities).projected_total_cost_usd =
      (let completion :=
        if activities.length > 0 then
          ((completedCount activities : Rat) / (activities.length : Rat)) * 100
        else 0
       if completion > 0 ∧ totalActualCost project.current_exchange_rate activities > 0 then
         totalActualCost project.current_exchange_rate activities / completion * 100
       else if totalPlannedBudget activities > 0 then
         totalPlannedBudget activities
       else
         totalActualCost project.current_exchange_rate activities) := rfl

/-- Claim C1: on the Scenario C input (budget 80000 USD, rate 500, two
completed activities with planned 20000 and 15000 USD and actual costs
12000000 and 7000000 CRC, one in_progress with planned 25000 and actual
5000000 CRC, one planned with planned 20000 and no actual cost),
getBudgetAnalysis returns total_actual_cost_usd 48000, utilization 60,
completion 50, projected total cost 96000, projected over budget 16000,
and the over-budget-risk flag set. -/
theorem scenarioC_budget_analysis :
    ∃ a, getBudgetAnalysis scenarioCStore 1 = Except.ok a ∧
      a.total_actual_cost_usd = 48000 ∧
      a.budget_utilization_percentage = 60 ∧
      a.project_completion_percentage = 50 ∧
      a.projected_total_cost_usd = 96000 ∧
      a.projected_over_budget_usd = 16000 ∧
      a.is_over_budget_risk = true := by
  have h1 : totalActualCost (500 : Rat) scenarioCActivities = 48000 := by
    norm_num [totalActualCost, scenarioCActivities, List.foldl]
  have h2 : completedCount scenarioCActivities = 2 := rfl
  have h3 : scenarioCActivities.length = 4 := rfl
  have h4 : totalPlannedBudget scenarioCActivities = 80000 := by
    norm_num [totalPlannedBudget, scenarioCActivities, List.foldl]
  refine ⟨computeBudgetAnalysis 1 scenarioCProject scenarioCActivities, rfl,
    ?_, ?_, ?_, ?_, ?_, ?_⟩
  · rw [actual_cost_eq]
    exact h1
  · norm_num [utilization_eq, scenarioCProject, h1]
  · norm_num [completion_eq, h2, h3]
  · norm_num [projected_eq, scenarioCProject, h1, h2, h3, h4]
  · norm_num [projected_over_eq, projected_eq, scenarioCProject, h1, h2, h3, h4, max_def]
  · norm_num [risk_eq, projected_over_eq, projected_eq, utilization_eq, completion_eq,
      scenarioCProject, h1, h2, h3, h4, max_def]

/-- Claim C2 (counterexample): with no completed activity, a total planned
budget of 0, and a recorded actual cost (1 USD), the code returns
projected_total_cost_usd = total_actual_cost_usd = 1, while the claimed
formula returns 0 in this final case. -/
theorem projected_fallback_not_zero :
    (computeBudgetAnalysis 1 sunkCostProject [sunkCostActivity]).project_completion_percentage = 0 ∧
    (computeBudgetAnalysis 1 sunkCostProject [sunkCostActivity]).total_planned_budget_usd = 0 ∧
    (computeBudgetAnalysis 1 sunkCostProject [sunkCostActivity]).total_actual_cost_usd = 1 ∧
    (computeBudgetAnalysis 1 sunkCostProject [sunkCostActivity]).projected_total_cost_usd = 1 ∧
    projectedTotalCostSpec sunkCostProject [sunkCostActivity] = 0 := by
  have h1 : totalActualCost (500 : Rat) [sunkCostActivity] = 1 := by
    norm_num [totalActualCost, sunkCostActivity, List.foldl]
  have h2 : completedCount [sunkCostActivity] = 0 := rfl
  have h4 : totalPlannedBudget [sunkCostActivity] = 0 := by
    norm_num [totalPlannedBudget, sunkCostActivity, List.foldl]
  refine ⟨?_, ?_, ?_, ?_, ?_⟩
  · norm_num [completion_eq, h2]
  · rw [planned_budget_eq]
    exact h4
  · rw [actual_cost_eq]
    exact h1
  · norm_num [projected_eq, sunkCostProject, h1, h2, h4]
  · norm_num [projectedTotalCostSpec, sunkCostProject, h1, h2, h4]

/-- Claim C2 (amended): projected_total_cost_usd follows the two stated
branches (extrapolation when completion and actual cost are positive,
total planned budget when that is positive), but in the final fallback it
equals total_actual_cost_usd — the accumulator the code initialised it
with — rather than 0. -/
theorem projected_total_cost_formula (projectId : Nat) (project : Project)
    (activities : List Activity) :
    (computeBudgetAnalysis projectId project activities).projected_total_cost_usd =
      (if (computeBudgetAnalysis projectId project activities).project_completion_percentage > 0 ∧
          (computeBudgetAnalysis projectId project activities).total_actual_cost_usd > 0 then
        (computeBudgetAnalysis projectId project activities).total_actual_cost_usd /
          (computeBudgetAnalysis projectId project activities).project_completion_percentage * 100
      else if (computeBudgetAnalysis projectId project activities).total_planned_budget_usd > 0 then
        (computeBudgetAnalysis projectId project activities).total_planned_budget_usd
      else
        (computeBudgetAnalysis projectId project activities).total_actual_cost_usd) := rfl

/-- Claim C9: both divisions in getBudgetAnalysis are guarded — when the
total budget is 0 the utilization percentage is 0 rather than a division
by zero, and when the activity list is empty the completion percentage is
0 rather than a division by zero. -/
theorem division_guards (projectId : Nat) (project : Project)
    (activities : List Activity) :
    (project.total_budget_usd = 0 →
      (computeBudgetAnalysis projectId project activities).budget_utilization_percentage = 0) ∧
    (activities = [] →
      (computeBudgetAnalysis projectId project activities).project_completion_percentage = 0) := by
  constructor
  · intro h
    rw [utilization_eq, h]
    norm_num
  · intro h
    subst h
    rw [completion_eq]
    norm_num

theorem division_guards_witness :
    (computeBudgetAnalysis 1 zeroBudgetProject []).budget_utilization_percentage = 0 ∧
    (computeBudgetAnalysis 1 zeroBudgetProject []).project_completion_percentage = 0 :=
  ⟨(division_guards 1 zeroBudgetProject []).1 rfl,
   (division_guards 1 zeroBudgetProject []).2 rfl⟩

/-- Claim C8: whenever the projected total cost strictly exceeds the total
budget, the projected overrun max(0, projected - budget) is strictly
positive and the over-budget-risk flag is set. -/
theorem risk_when_projected_exceeds_budget (projectId : Nat) (project : Project)
    (activities : List Activity)
    (h : (computeBudgetAnalysis projectId project activities).projected_total_cost_usd >
      project.total_budget_usd) :
    (computeBudgetAnalysis projectId project activities).projected_over_budget_usd > 0 ∧
    (computeBudgetAnalysis projectId project activities).is_over_budget_risk = true := by
  have hover :
      (computeBudgetAnalysis projectId project activities).projected_over_budget_usd > 0 := by
    rw [projected_over_eq]
    have hpos :
        (0 : Rat) <
          (computeBudgetAnalysis projectId project activities).projected_total_cost_usd -
            project.total_budget_usd := by linarith
    exact lt_of_lt_of_le hpos (le_max_right _ _)
  refine ⟨hover, ?_⟩
  rw [risk_eq]
  simp only [Bool.or_eq_true, decide_eq_true_eq]
  exact Or.inl hover

theorem risk_when_projected_exceeds_budget_witness :
    (computeBudgetAnalysis 1 scenarioCProject scenarioCActivities).projected_over_budget_usd > 0 ∧
    (computeBudgetAnalysis 1 scenarioCProject scenarioCActivities).is_over_budget_risk = true := by
  apply risk_when_projected_exceeds_budget
  have h1 : totalActualCost (500 : Rat) scenarioCActivities = 48000 := by
    norm_num [totalActualCost, scenarioCActivities, List.foldl]
  have h2 : completedCount scenarioCActivities = 2 := rfl
  have h3 : scenarioCActivities.length = 4 := rfl
  have h4 : totalPlannedBudget scenarioCActivities = 80000 := by
    norm_num [totalPlannedBudget, scenarioCActivities, List.foldl]
  norm_num [projected_eq, scenarioCProject, h1, h2, h3, h4]

/-- Claim C5: the client-side transition to in_progress assigns
actual_start_date = now only when it was null, keeps an already-set value,
and applying the transition twice leaves actual_start_date as after the
first application. -/
theorem in_progress_transition_idempotent (a : Activity) (t1 t2 : Nat) :
    (a.actual_start_date = none →
      (handleStatusUpdate a ActivityStatus.in_progress t1).actual_start_date = some t1) ∧
    (∀ d, a.actual_start_date = some d →
      (handleStatusUpdate a ActivityStatus.in_progress t1).actual_start_date = some d) ∧
    (handleStatusUpdate (handleStatusUpdate a ActivityStatus.in_progress t1)
        ActivityStatus.in_progress t2).actual_start_date =
      (handleStatusUpdate a ActivityStatus.in_progress t1).actual_start_date := by
  refine ⟨fun h => ?_, fun d h => ?_, ?_⟩
  · simp [handleStatusUpdate, h]
  · simp [handleStatusUpdate, h]
  · cases h : a.actual_start_date <;> simp [handleStatusUpdate, h]

theorem in_progress_transition_idempotent_witness :
    (handleStatusUpdate freshActivity ActivityStatus.in_progress 5).actual_start_date = some 5 ∧
    (handleStatusUpdate (handleStatusUpdate freshActivity ActivityStatus.in_progress 5)
        ActivityStatus.in_progress 9).actual_start_date =
      (handleStatusUpdate freshActivity ActivityStatus.in_progress 5).actual_start_date :=
  ⟨(in_progress_transition_idempotent freshActivity 5 9).1 rfl,
   (in_progress_transition_idempotent freshActivity 5 9).2.2⟩

/-- Claim C10: the server-side updateActivity applies exactly the provided
fields: it always stamps updated_at with now, never touches id, project_id
or created_at, and every optional field that is absent from the input
keeps its previous value — in particular an input carrying only a status
changes neither actual_start_date nor actual_end_date. -/
theorem updateActivity_frame (s : Store) (input : UpdateActivityInput) (now : Nat)
    (a : Activity)
    (hfind : s.activities.find? (fun b => b.id == input.id) = some a) :
    (∃ s2, updateActivity s input now = Except.ok (applyActivityUpdate input now a, s2)) ∧
    (applyActivityUpdate input now a).updated_at = now ∧
    (applyActivityUpdate input now a).id = a.id ∧
    (applyActivityUpdate input now a).project_id = a.project_id ∧
    (applyActivityUpdate input now a).created_at = a.created_at ∧
    (input.name = none → (applyActivityUpdate input now a).name = a.name) ∧
    (input.description = none →
      (applyActivityUpdate input now a).description = a.description) ∧
    (input.estimated_start_date = none →
      (applyActivityUpdate input now a).estimated_start_date = a.estimated_start_date) ∧
    (input.estimated_end_date = none →
      (applyActivityUpdate input now a).estimated_end_date = a.estimated_end_date) ∧
    (input.actual_start_date = none →
      (applyActivityUpdate input now a).actual_start_date = a.actual_start_date) ∧
    (input.actual_end_date = none →
      (applyActivityUpdate input now a).actual_end_date = a.actual_end_date) ∧
    (input.contractor = none → (applyActivityUpdate input now a).contractor = a.contractor) ∧
    (input.planned_budget_usd = none →
      (applyActivityUpdate input now a).planned_budget_usd = a.planned_budget_usd) ∧
    (input.actual_cost_crc = none →
      (applyActivityUpdate input now a).actual_cost_crc = a.actual_cost_crc) ∧
    (input.status = none → (applyActivityUpdate input now a).status = a.status) := by
  constructor
  · have heq : updateActivity s input now =
        Except.ok (applyActivityUpdate input now a,
          { s with
            activities := s.activities.map (fun b =>
              if b.id == input.id then applyActivityUpdate input now b else b) }) := by
      unfold updateActivity
      rw [hfind]
    exact ⟨_, heq⟩
  refine ⟨rfl, rfl, rfl, rfl, ?_, ?_, ?_, ?_, ?_, ?_, ?_, ?_, ?_, ?_⟩ <;>
    (intro h; simp [applyActivityUpdate, h])

theorem updateActivity_frame_witness :
    (applyActivityUpdate statusOnlyInput 7 freshActivity).actual_start_date = none ∧
    (applyActivityUpdate statusOnlyInput 7 freshActivity).actual_end_date = none ∧
    (applyActivityUpdate statusOnlyInput 7 freshActivity).updated_at = 7 := by
  obtain ⟨-, hupd, -, -, -, -, -, -, -, hs, he, -, -, -, -⟩ :=
    updateActivity_frame oneActivityStore statusOnlyInput 7 freshActivity rfl
  exact ⟨(hs rfl).trans rfl, (he rfl).trans rfl, hupd⟩

/-- Claim C4 (counterexample): getProjectById returns null (none) for an
id that references no project — here on the empty store — rather than
signalling a Not-Found error; its own test suite expects this null. -/
theorem getProjectById_null_counterexample :
    emptyStore.projects = [] ∧ getProjectById emptyStore 999 = none :=
  ⟨rfl, rfl⟩

/-- Claim C4 (amended): for an id referencing no project,
getBudgetAnalysis signals Not-Found, getExchangeRateHistory returns the
empty collection without erroring (given referential integrity of the
history table), and getProjectById returns null (none) rather than a
Not-Found error. -/
theorem missing_project_lookups (s : Store) (id : Nat)
    (hmiss : s.projects.find? (fun p => p.id == id) = none)
    (hfk : ∀ e ∈ s.history, ∃ p ∈ s.projects, p.id = e.project_id) :
    getProjectById s id = none ∧
    (∃ msg, getBudgetAnalysis s id = Except.error msg) ∧
    getExchangeRateHistory s id = [] := by
  refine ⟨hmiss, ?_, ?_⟩
  · have heq : getBudgetAnalysis s id =
        Except.error ("Project with id " ++ toString id ++ " not found") := by
      unfold getBudgetAnalysis
      rw [hmiss]
    exact ⟨_, heq⟩
  · unfold getExchangeRateHistory
    have hfilter : s.history.filter (fun e => e.project_id == id) = [] := by
      rw [List.filter_eq_nil_iff]
      intro e he hbe
      obtain ⟨p, hp, hpid⟩ := hfk e he
      have hnot := List.find?_eq_none.mp hmiss p hp
      exact hnot (by rw [hpid]; exact hbe)
    rw [hfilter]
    rfl

theorem missing_project_lookups_witness :
    getProjectById smallStore 999 = none ∧
    (∃ msg, getBudgetAnalysis smallStore 999 = Except.error msg) ∧
    getExchangeRateHistory smallStore 999 = [] :=
  missing_project_lookups smallStore 999 rfl
    (by
      intro e he
      refine ⟨scenarioCProject, by simp [smallStore], ?_⟩
      simp only [smallStore, List.mem_singleton] at he
      subst he
      rfl)

/-- Claim C6: on an existing project, updateExchangeRate performs both
side effects together: it appends exactly one history entry carrying the
given rate and the current timestamp, and it overwrites the project's
current_exchange_rate and updated_at — with no requirement that the new
rate differ from the current one. -/
theorem updateExchangeRate_effects (s : Store) (input : UpdateExchangeRateInput)
    (now : Nat) (p : Project)
    (hfind : s.projects.find? (fun q => q.id == input.project_id) = some p) :
    ∃ entry s2, updateExchangeRate s input now = Except.ok (entry, s2) ∧
      entry.usd_to_crc_rate = input.usd_to_crc_rate ∧
      entry.effective_date = now ∧
      entry.created_at = now ∧
      entry.project_id = input.project_id ∧
      s2.history = s.history ++ [entry] ∧
      getProjectById s2 input.project_id =
        some { p with current_exchange_rate := input.usd_to_crc_rate, updated_at := now } ∧
      s2.activities = s.activities := by
  have heq : updateExchangeRate s input now =
      Except.ok
        ({ id := s.nextEntryId
           project_id := input.project_id
           usd_to_crc_rate := input.usd_to_crc_rate
           effective_date := now
           created_at := now },
         { s with
           projects := s.projects.map (fun q =>
             if q.id == input.project_id then
               { q with current_exchange_rate := input.usd_to_crc_rate, updated_at := now }
             else q)
           history := s.history ++
             [{ id := s.nextEntryId
                project_id := input.project_id
                usd_to_crc_rate := input.usd_to_crc_rate
                effective_date := now
                created_at := now }]
           nextEntryId := s.nextEntryId + 1 }) := by
    unfold updateExchangeRate
    rw [hfind]
  refine ⟨_, _, heq, rfl, rfl, rfl, rfl, rfl, ?_, rfl⟩
  have hp := List.find?_some hfind
  show (s.projects.map (fun q =>
      if q.id == input.project_id then
        { q with current_exchange_rate := input.usd_to_crc_rate, updated_at := now }
      else q)).find? (fun q => q.id == input.project_id) =
    some { p with current_exchange_rate := input.usd_to_crc_rate, updated_at := now }
  rw [List.find?_map]
  have hpred : ((fun (q : Project) => q.id == input.project_id) ∘
      (fun (q : Project) => if q.id == input.project_id then
        { q with current_exchange_rate := input.usd_to_crc_rate, updated_at := now }
      else q)) = (fun (q : Project) => q.id == input.project_id) := by
    funext q
    by_cases hq : (q.id == input.project_id) = true
    · simp [Function.comp, hq]
    · simp [Function.comp, hq]
  rw [hpred, hfind]
  have hpid : p.id = input.project_id := by simpa using hp
  simp [hpid]

theorem updateExchangeRate_effects_witness :
    ∃ entry s2,
      updateExchangeRate smallStore { project_id := 1, usd_to_crc_rate := 500 } 3 =
        Except.ok (entry, s2) ∧
      entry.usd_to_crc_rate = 500 ∧
      entry.effective_date = 3 ∧
      entry.created_at = 3 ∧
      entry.project_id = 1 ∧
      s2.history = smallStore.history ++ [entry] ∧
      getProjectById s2 1 =
        some { scenarioCProject with current_exchange_rate := 500, updated_at := 3 } ∧
      s2.activities = smallStore.activities :=
  updateExchangeRate_effects smallStore { project_id := 1, usd_to_crc_rate := 500 } 3
    scenarioCProject rfl

/-- Claim C7: on a project_id referencing no project, updateExchangeRate
fails with Not-Found, and as a store transition it leaves the store
exactly unchanged: no history entry appended, no project row modified. -/
theorem updateExchangeRate_missing (s : Store) (input : UpdateExchangeRateInput)
    (now : Nat)
    (hmiss : s.projects.find? (fun q => q.id == input.project_id) = none) :
    (∃ msg, updateExchangeRate s input now = Except.error msg) ∧
    step s (Op.updateRateOp input now) = s := by
  have herr : updateExchangeRate s input now =
      Except.error ("Project with id " ++ toString input.project_id ++ " not found") := by
    unfold updateExchangeRate
    rw [hmiss]
  refine ⟨⟨_, herr⟩, ?_⟩
  simp only [step, herr]

theorem updateExchangeRate_missing_witness :
    (∃ msg, updateExchangeRate emptyStore { project_id := 42, usd_to_crc_rate := 650 } 0 =
      Except.error msg) ∧
    step emptyStore (Op.updateRateOp { project_id := 42, usd_to_crc_rate := 650 } 0) =
      emptyStore :=
  updateExchangeRate_missing emptyStore { project_id := 42, usd_to_crc_rate := 650 } 0 rfl

/-- Claim C3 (counterexample): after the drift operations the single
project carries rate 700 while its most recent history entry carries 600 —
updateProject overwrote current_exchange_rate without appending a history
entry, so the claimed invariant fails on a reachable state. -/
theorem rate_history_drift_counterexample :
    ¬ rateConsistent (runOps rateDriftOps) ∧
    (runOps rateDriftOps).projects.map (fun p => p.current_exchange_rate) = [700] ∧
    (runOps rateDriftOps).history.map (fun e => e.usd_to_crc_rate) = [600] := by
  refine ⟨?_, ?_, ?_⟩ <;> decide

/-! Helper lemmas about find?, the last history entry and the creation-rate
log under appends. -/

theorem find?_append_eq_of_eq_some {α : Type} {p : α → Bool} {l1 : List α} {a : α}
    (l2 : List α) (h : l1.find? p = some a) : (l1 ++ l2).find? p = some a := by
  rw [List.find?_append, h]
  rfl

theorem find?_append_eq_of_eq_none {α : Type} {p : α → Bool} {l1 : List α}
    (l2 : List α) (h : l1.find? p = none) : (l1 ++ l2).find? p = l2.find? p := by
  rw [List.find?_append, h, Option.none_or]

theorem lastEntryIn_append_self (history : List ExchangeRateHistoryEntry)
    (entry : ExchangeRateHistoryEntry) (pid : Nat) (hpid : entry.project_id = pid) :
    lastEntryIn (history ++ [entry]) pid = some entry := by
  unfold lastEntryIn
  rw [List.filter_append]
  have hone : [entry].filter (fun e => e.project_id == pid) = [entry] := by
    simp [List.filter, hpid]
  rw [hone, List.getLast?_concat]

theorem lastEntryIn_append_other (history : List ExchangeRateHistoryEntry)
    (entry : ExchangeRateHistoryEntry) (pid : Nat) (hpid : entry.project_id ≠ pid) :
    lastEntryIn (history ++ [entry]) pid = lastEntryIn history pid := by
  unfold lastEntryIn
  rw [List.filter_append]
  have hone : [entry].filter (fun e => e.project_id == pid) = [] := by
    simp [List.filter, beq_eq_false_iff_ne.mpr hpid]
  rw [hone, List.append_nil]

theorem lastEntryIn_fresh (history : List ExchangeRateHistoryEntry) (pid : Nat)
    (h : ∀ e ∈ history, e.project_id ≠ pid) : lastEntryIn history pid = none := by
  unfold lastEntryIn
  have hnil : history.filter (fun e => e.project_id == pid) = [] := by
    rw [List.filter_eq_nil_iff]
    intro e he hbe
    exact h e he (by simpa using hbe)
  rw [hnil]
  rfl

theorem creationRateIn_append_of_some (cr : List (Nat × Rat)) (x : Nat × Rat)
    (pid : Nat) (r : Rat) (h : creationRateIn cr pid = some r) :
    creationRateIn (cr ++ [x]) pid = some r := by
  unfold creationRateIn at h ⊢
  cases hf : cr.find? (fun pr => pr.1 == pid) with
  | none => rw [hf] at h; exact absurd h (by simp)
  | some pr =>
      rw [find?_append_eq_of_eq_some _ hf]
      rw [hf] at h
      exact h

theorem creationRateIn_append_fresh (cr : List (Nat × Rat)) (pid : Nat) (r : Rat)
    (h : ∀ pr ∈ cr, pr.1 ≠ pid) :
    creationRateIn (cr ++ [(pid, r)]) pid = some r := by
  unfold creationRateIn
  rw [find?_append_eq_of_eq_none]
  · rw [List.find?_cons_of_pos _ (by simp)]
    rfl
  · rw [List.find?_eq_none]
    intro pr hpr hbe
    exact h pr hpr (by simpa using hbe)

theorem expectedRateIn_append_self (history : List ExchangeRateHistoryEntry)
    (cr : List (Nat × Rat)) (entry : ExchangeRateHistoryEntry) (pid : Nat)
    (hpid : entry.project_id = pid) :
    expectedRateIn (history ++ [entry]) cr pid = some entry.usd_to_crc_rate := by
  unfold expectedRateIn
  rw [lastEntryIn_append_self history entry pid hpid]

theorem expectedRateIn_append_other (history : List ExchangeRateHistoryEntry)
    (cr : List (Nat × Rat)) (entry : ExchangeRateHistoryEntry) (pid : Nat)
    (hpid : entry.project_id ≠ pid) :
    expectedRateIn (history ++ [entry]) cr pid = expectedRateIn history cr pid := by
  unfold expectedRateIn
  rw [lastEntryIn_append_other history entry pid hpid]

theorem expectedRateIn_creation_append (history : List ExchangeRateHistoryEntry)
    (cr : List (Nat × Rat)) (x : Nat × Rat) (pid : Nat) (r : Rat)
    (h : expectedRateIn history cr pid = some r) :
    expectedRateIn history (cr ++ [x]) pid = some r := by
  unfold expectedRateIn at h ⊢
  cases hl : lastEntryIn history pid with
  | some e => rw [hl] at h; exact h
  | none =>
      rw [hl] at h
      exact creationRateIn_append_of_some cr x pid r h

/-! Preservation of the id bounds and the audit-trail invariant by each
operation, then by whole operation sequences. -/

theorem create_preserves (s : Store) (input : CreateProjectInput) (now : Nat)
    (hwf : wfIds s) (hrc : rateConsistent s) :
    wfIds (createProject s input now).2 ∧ rateConsistent (createProject s input now).2 := by
  obtain ⟨hw1, hw2, hw3⟩ := hwf
  constructor
  · refine ⟨?_, ?_, ?_⟩
    · intro q hq
      simp only [createProject, List.mem_append, List.mem_singleton] at hq
      simp only [createProject]
      rcases hq with hq | rfl
      · exact Nat.lt_succ_of_lt (hw1 q hq)
      · exact Nat.lt_succ_self _
    · intro e he
      simp only [createProject] at he
      simp only [createProject]
      exact Nat.lt_succ_of_lt (hw2 e he)
    · intro pr hpr
      simp only [createProject, List.mem_append, List.mem_singleton] at hpr
      simp only [createProject]
      rcases hpr with hpr | rfl
      · exact Nat.lt_succ_of_lt (hw3 pr hpr)
      · exact Nat.lt_succ_self _
  · intro q hq
    simp only [createProject, List.mem_append, List.mem_singleton] at hq
    rcases hq with hq | rfl
    · have hold := hrc q hq
      exact expectedRateIn_creation_append s.history s.creationRates _ q.id _ hold
    · have hnone : lastEntryIn s.history s.nextProjectId = none :=
        lastEntryIn_fresh s.history s.nextProjectId
          (fun e he => Nat.ne_of_lt (hw2 e he))
      show expectedRateIn s.history
          (s.creationRates ++ [(s.nextProjectId, input.current_exchange_rate)])
          s.nextProjectId = some input.current_exchange_rate
      unfold expectedRateIn
      rw [hnone]
      exact creationRateIn_append_fresh s.creationRates s.nextProjectId
        input.current_exchange_rate (fun pr hpr => Nat.ne_of_lt (hw3 pr hpr))

theorem updateRate_preserves (s : Store) (input : UpdateExchangeRateInput) (now : Nat)
    (hwf : wfIds s) (hrc : rateConsistent s) :
    wfIds (step s (Op.updateRateOp input now)) ∧
    rateConsistent (step s (Op.updateRateOp input now)) := by
  obtain ⟨hw1, hw2, hw3⟩ := hwf
  cases hfind : s.projects.find? (fun q => q.id == input.project_id) with
  | none =>
      have herr : updateExchangeRate s input now =
          Except.error ("Project with id " ++ toString input.project_id ++ " not found") := by
        unfold updateExchangeRate
        rw [hfind]
      have hstep : step s (Op.updateRateOp input now) = s := by
        simp only [step, herr]
      rw [hstep]
      exact ⟨⟨hw1, hw2, hw3⟩, hrc⟩
  | some p0 =>
      have hp0mem : p0 ∈ s.projects := List.mem_of_find?_eq_some hfind
      have hp0id : p0.id = input.project_id := by simpa using List.find?_some hfind
      have hok : updateExchangeRate s input now =
          Except.ok
            ({ id := s.nextEntryId
               project_id := input.project_id
               usd_to_crc_rate := input.usd_to_crc_rate
               effective_date := now
               created_at := now },
             { s with
               projects := s.projects.map (fun q =>
                 if q.id == input.project_id then
                   { q with current_exchange_rate := input.usd_to_crc_rate, updated_at := now }
                 else q)
               history := s.history ++
                 [{ id := s.nextEntryId
                    project_id := input.project_id
                    usd_to_crc_rate := input.usd_to_crc_rate
                    effective_date := now
                    created_at := now }]
               nextEntryId := s.nextEntryId + 1 }) := by
        unfold updateExchangeRate
        rw [hfind]
      have hstep : step s (Op.updateRateOp input now) =
          { s with
            projects := s.projects.map (fun q =>
              if q.id == input.project_id then
                { q with current_exchange_rate := input.usd_to_crc_rate, updated_at := now }
              else q)
            history := s.history ++
              [{ id := s.nextEntryId
                 project_id := input.project_id
                 usd_to_crc_rate := input.usd_to_crc_rate
                 effective_date := now
                 created_at := now }]
            nextEntryId := s.nextEntryId + 1 } := by
        simp only [step, hok]
      rw [hstep]
      constructor
      · refine ⟨?_, ?_, ?_⟩
        · intro q hq
          simp only [List.mem_map] at hq
          obtain ⟨q0, hq0, rfl⟩ := hq
          have hid : ((if q0.id == input.project_id then
              { q0 with current_exchange_rate := input.usd_to_crc_rate, updated_at := now }
            else q0) : Project).id = q0.id := by
            by_cases h : (q0.id == input.project_id) = true
            · simp [h]
            · simp [h]
          show ((if q0.id == input.project_id then
              { q0 with current_exchange_rate := input.usd_to_crc_rate, updated_at := now }
            else q0) : Project).id < s.nextProjectId
          rw [hid]
          exact hw1 q0 hq0
        · intro e he
          simp only [List.mem_append, List.mem_singleton] at he
          rcases he with he | rfl
          · exact hw2 e he
          · show input.project_id < s.nextProjectId
            rw [← hp0id]
            exact hw1 p0 hp0mem
        · intro pr hpr
          exact hw3 pr hpr
      · intro q hq
        simp only [List.mem_map] at hq
        obtain ⟨q0, hq0, rfl⟩ := hq
        by_cases h : (q0.id == input.project_id) = true
        · have hq0eq : q0.id = input.project_id := by simpa using h
          have hf : ((if q0.id == input.project_id then
              { q0 with current_exchange_rate := input.usd_to_crc_rate, updated_at := now }
            else q0) : Project) =
              { q0 with current_exchange_rate := input.usd_to_crc_rate, updated_at := now } := by
            simp [h]
          rw [hf]
          show expectedRateIn
              (s.history ++
                [{ id := s.nextEntryId
                   project_id := input.project_id
                   usd_to_crc_rate := input.usd_to_crc_rate
                   effective_date := now
                   created_at := now }])
              s.creationRates q0.id = some input.usd_to_crc_rate
          rw [hq0eq]
          exact expectedRateIn_append_self s.history s.creationRates _ input.project_id rfl
        · have hq0ne : q0.id ≠ input.project_id := by simpa using h
          have hf : ((if q0.id == input.project_id then
              { q0 with current_exchange_rate := input.usd_to_crc_rate, updated_at := now }
            else q0) : Project) = q0 := by
            simp [h]
          rw [hf]
          show expectedRateIn
              (s.history ++
                [{ id := s.nextEntryId
                   project_id := input.project_id
                   usd_to_crc_rate := input.usd_to_crc_rate
                   effective_date := now
                   created_at := now }])
              s.creationRates q0.id = some q0.current_exchange_rate
          rw [expectedRateIn_append_other s.history s.creationRates _ q0.id
            (fun hcontra => hq0ne hcontra.symm)]
          exact hrc q0 hq0

theorem updateProjectStep_preserves (s : Store) (input : UpdateProjectInput) (now : Nat)
    (hop : input.current_exchange_rate = none)
    (hwf : wfIds s) (hrc : rateConsistent s) :
    wfIds (step s (Op.updateProjectOp input now)) ∧
    rateConsistent (step s (Op.updateProjectOp input now)) := by
  obtain ⟨hw1, hw2, hw3⟩ := hwf
  cases hfind : s.projects.find? (fun p => p.id == input.id) with
  | none =>
      have herr : updateProject s input now =
          Except.error ("Project with id " ++ toString input.id ++ " not found") := by
        unfold updateProject
        rw [hfind]
      have hstep : step s (Op.updateProjectOp input now) = s := by
        simp only [step, herr]
      rw [hstep]
      exact ⟨⟨hw1, hw2, hw3⟩, hrc⟩
  | some p0 =>
      have hok : updateProject s input now =
          Except.ok (applyProjectUpdate input now p0,
            { s with
              projects := s.projects.map (fun q =>
                if q.id == input.id then applyProjectUpdate input now q else q) }) := by
        unfold updateProject
        rw [hfind]
      have hstep : step s (Op.updateProjectOp input now) =
          { s with
            projects := s.projects.map (fun q =>
              if q.id == input.id then applyProjectUpdate input now q else q) } := by
        simp only [step, hok]
      rw [hstep]
      have hid : ∀ q0 : Project,
          ((if q0.id == input.id then applyProjectUpdate input now q0 else q0) : Project).id =
            q0.id := by
        intro q0
        by_cases h : (q0.id == input.id) = true
        · simp [h, applyProjectUpdate]
        · simp [h]
      have hrate : ∀ q0 : Project,
          ((if q0.id == input.id then applyProjectUpdate input now q0 else q0) :
            Project).current_exchange_rate = q0.current_exchange_rate := by
        intro q0
        by_cases h : (q0.id == input.id) = true
        · simp [h, applyProjectUpdate, hop]
        · simp [h]
      constructor
      · refine ⟨?_, ?_, ?_⟩
        · intro q hq
          simp only [List.mem_map] at hq
          obtain ⟨q0, hq0, rfl⟩ := hq
          show ((if q0.id == input.id then applyProjectUpdate input now q0 else q0) :
            Project).id < s.nextProjectId
          rw [hid q0]
          exact hw1 q0 hq0
        · intro e he
          exact hw2 e he
        · intro pr hpr
          exact hw3 pr hpr
      · intro q hq
        simp only [List.mem_map] at hq
        obtain ⟨q0, hq0, rfl⟩ := hq
        show expectedRateIn s.history s.creationRates
            ((if q0.id == input.id then applyProjectUpdate input now q0 else q0) :
              Project).id =
          some ((if q0.id == input.id then applyProjectUpdate input now q0 else q0) :
            Project).current_exchange_rate
        rw [hid q0, hrate q0]
        exact hrc q0 hq0

theorem step_preserves (s : Store) (op : Op) (hop : opPreservesRateLog op)
    (hwf : wfIds s) (hrc : rateConsistent s) :
    wfIds (step s op) ∧ rateConsistent (step s op) := by
  cases op with
  | createProjectOp input now => exact create_preserves s input now hwf hrc
  | updateProjectOp input now => exact updateProjectStep_preserves s input now hop hwf hrc
  | updateRateOp input now => exact updateRate_preserves s input now hwf hrc

theorem foldl_preserves (ops : List Op) :
    ∀ s : Store, wfIds s → rateConsistent s →
      (∀ op ∈ ops, opPreservesRateLog op) →
      wfIds (ops.foldl step s) ∧ rateConsistent (ops.foldl step s) := by
  induction ops with
  | nil =>
      intro s hwf hrc _
      exact ⟨hwf, hrc⟩
  | cons op ops ih =>
      intro s hwf hrc hall
      have h1 := step_preserves s op (hall op (by simp)) hwf hrc
      exact ih (step s op) h1.1 h1.2 (fun o ho => hall o (by simp [ho]))

theorem wfIds_empty : wfIds emptyStore := by
  refine ⟨?_, ?_, ?_⟩ <;> (intro x hx; simp [emptyStore] at hx)

theorem rateConsistent_empty : rateConsistent emptyStore := by
  intro p hp
  simp [emptyStore] at hp

/-- Claim C3 (amended): for every sequence of createProject, updateProject
and updateExchangeRate operations in which no updateProject provides a
current_exchange_rate, every reachable state satisfies the audit-trail
invariant: each project's current_exchange_rate equals the rate of its
most recent history entry, or its creation-time rate when no entry exists.
The restriction is forced by the counterexample: updateProject can
overwrite the rate without appending any history entry. -/
theorem rate_history_invariant (ops : List Op)
    (h : ∀ op ∈ ops, opPreservesRateLog op) :
    rateConsistent (runOps ops) :=
  (foldl_preserves ops emptyStore wfIds_empty rateConsistent_empty h).2

theorem rate_history_invariant_witness : rateConsistent (runOps auditedOps) :=
  rate_history_invariant auditedOps (by decide)

end HPM
